import Mathlib

/-!
Shallow embedding of the recording / saving pipeline of the DCAM Live Viewer
(`src/main.cpp`): the record-to-memory buffer, the start/stop recording
handlers, the detached save-worker thread, and the single-frame capture
handler, together with proofs of the behavioural properties they satisfy.

Machine conventions: pixel payloads are abstracted to an opaque tag
(`Frame.data`); timestamps and device-reported numeric settings are carried
as natural numbers (they are only ever stored, snapshotted and printed,
never computed with); the filesystem is modelled by the list of writes a
routine performs.
-/

namespace DCAM

/-- One captured image (`QImage` copy). The pixel payload is abstracted to a
tag; the save path never inspects pixels, it only moves frames around. -/
structure Frame where
  data : Nat
deriving DecidableEq, Repr

/-- The per-frame metadata struct (`FrameMeta` in the source): the fields the
save path reads (`width`, `height`, `binning`, `bits`, `internalFps`,
`readoutSpeed`) plus the counters shown in the stats label. -/
structure FrameMeta where
  width : Nat
  height : Nat
  binning : Nat
  bits : Nat
  internalFps : Nat
  readoutSpeed : Nat
  frameIndex : Nat
  delivered : Nat
  dropped : Nat
deriving DecidableEq, Repr

instance : Inhabited FrameMeta := ⟨⟨0, 0, 0, 0, 0, 0, 0, 0, 0⟩⟩

/-! ### Decimal rendering of frame indices

`QString("%1.tiff").arg(i, width, 10, QChar('0'))` renders `i` in base 10 and
left-pads it with `'0'` to `width` characters (no truncation). We model the
base-10 rendering with `Nat.digits` (least-significant first, reversed to
most-significant first) and the padding explicitly. -/

/-- The character for one decimal digit. -/
def digitChar (d : Nat) : Char :=
  match d with
  | 0 => '0' | 1 => '1' | 2 => '2' | 3 => '3' | 4 => '4'
  | 5 => '5' | 6 => '6' | 7 => '7' | 8 => '8' | _ => '9'

/-- Most-significant-first decimal digit list of `n` (`[0]` for `0`). -/
def decDigits (n : Nat) : List Nat :=
  if n = 0 then [0] else (Nat.digits 10 n).reverse

/-- Base-10 rendering of a natural number, as the C++ `arg(i, …, 10, …)`
produces before padding. -/
def natStr (n : Nat) : String :=
  ⟨(decDigits n).map digitChar⟩

/-- Left-pad a string with `'0'` to width `w` (what the `QChar('0')` fill
character of `QString::arg` does; strings already at least `w` long are kept
unchanged). -/
def zeroPad (s : String) (w : Nat) : String :=
  ⟨List.replicate (w - s.data.length) '0' ++ s.data⟩

/-- The per-frame file name written by the save worker:
`QString("%1.tiff").arg(i, width, 10, QChar('0'))`. -/
def frameFileName (i w : Nat) : String :=
  zeroPad (natStr i) w ++ ".tiff"

/-- The zero-pad width used by the save worker:
`std::max(6, (int)std::ceil(std::log10(std::max<size_t>(1, frames->size()))))`.
`Nat.clog 10` is the exact ceiling base-10 logarithm. -/
def saveWidth (n : Nat) : Nat :=
  max 6 (Nat.clog 10 (max 1 n))

/-! ### Numeric decoding of file names

To state that numeric filename order reconstructs acquisition order we give
the inverse: read a zero-padded decimal string back into a number. -/

/-- Numeric value of a decimal digit character. -/
def charVal (c : Char) : Nat := c.toNat - 48

/-- Fold a most-significant-first digit list into its value. -/
def decodeDigits (l : List Nat) : Nat :=
  l.foldl (fun a d => 10 * a + d) 0

/-- Numeric value encoded by a decimal string (leading zeros allowed). -/
def decodeIndex (s : String) : Nat :=
  decodeDigits (s.data.map charVal)

theorem decodeDigits_cons_zero (l : List Nat) :
    decodeDigits (0 :: l) = decodeDigits l := by
  simp [decodeDigits]

theorem decodeDigits_replicate_zero (k : Nat) (l : List Nat) :
    decodeDigits (List.replicate k 0 ++ l) = decodeDigits l := by
  induction k with
  | zero => simp
  | succ k ih =>
      simpa [List.replicate_succ, decodeDigits] using ih

theorem decodeDigits_append_singleton (l : List Nat) (d : Nat) :
    decodeDigits (l ++ [d]) = 10 * decodeDigits l + d := by
  simp [decodeDigits, List.foldl_append]

theorem decodeDigits_digits_reverse (n : Nat) :
    decodeDigits (Nat.digits 10 n).reverse = n := by
  induction n using Nat.strong_induction_on with
  | _ n ih =>
      rcases Nat.eq_zero_or_pos n with h0 | hpos
      · subst h0; simp [decodeDigits]
      · rw [Nat.digits_def' (by norm_num : 1 < 10) hpos]
        rw [List.reverse_cons, decodeDigits_append_singleton,
          ih (n / 10) (Nat.div_lt_self hpos (by norm_num))]
        omega

theorem charVal_digitChar {d : Nat} (hd : d < 10) :
    charVal (digitChar d) = d := by
  interval_cases d <;> rfl

theorem decodeIndex_natStr (n : Nat) : decodeIndex (natStr n) = n := by
  unfold decodeIndex natStr
  rcases Nat.eq_zero_or_pos n with h0 | hpos
  · subst h0; rfl
  · have hne : n ≠ 0 := Nat.pos_iff_ne_zero.mp hpos
    have hmap : ((decDigits n).map digitChar).map charVal = decDigits n := by
      rw [List.map_map]
      apply List.map_congr_left ?_ |>.trans (List.map_id _)
      intro d hdmem
      have hd : d < 10 := by
        have := Nat.digits_lt_base (by norm_num : 1 < 10)
          (by simpa [decDigits, hne, List.mem_reverse] using hdmem)
        exact this
      simp [Function.comp, charVal_digitChar hd]
    show decodeDigits (((decDigits n).map digitChar).map charVal) = n
    rw [hmap]
    simpa [decDigits, hne] using decodeDigits_digits_reverse n

theorem decodeIndex_zeroPad (s : String) (w : Nat) :
    decodeIndex (zeroPad s w) = decodeIndex s := by
  unfold decodeIndex zeroPad
  show decodeDigits ((List.replicate (w - s.data.length) '0' ++ s.data).map charVal)
      = decodeDigits (s.data.map charVal)
  rw [List.map_append, List.map_replicate]
  have : charVal '0' = 0 := rfl
  rw [this, decodeDigits_replicate_zero]

/-- Reading the padded index string back yields the index: leading-zero
padding does not disturb numeric decoding. -/
theorem decodeIndex_pad (i w : Nat) :
    decodeIndex (zeroPad (natStr i) w) = i := by
  rw [decodeIndex_zeroPad, decodeIndex_natStr]

/-! ### The save job and the save-worker thread body -/

/-- One filesystem write performed by a routine: either one frame written as
an image file (`im.save(path, "TIFF")`), or the metadata text file written
line by line through the `QTextStream`. -/
inductive FsWrite where
  | imageFile (path : String) (frame : Frame)
  | infoFile (path : String) (lines : List String)
deriving DecidableEq, Repr

/-- Is this write the metadata file? -/
def FsWrite.isInfo : FsWrite → Bool
  | .imageFile _ _ => false
  | .infoFile _ _ => true

/-- What the detached save-worker thread captures at spawn time
(`stopSaving`, lines 997–1001): the swapped-out frame sequence, the
destination directory, and the metadata snapshot (`metaCopy`, `expMsCopy`,
`recordStartStr`) taken before the thread starts. -/
structure SaveJob where
  frames : List Frame
  meta : FrameMeta
  expMs : Nat
  recordStart : Nat
  outDir : String
deriving DecidableEq, Repr

/-- The save worker's frame loop
(`for (size_t i = 0; i < frames->size(); ++i) … im.save(path, "TIFF")`),
counting the index up from `i`. -/
def writeFrames (outDir : String) (w : Nat) : Nat → List Frame → List FsWrite
  | _, [] => []
  | i, fr :: rest =>
      .imageFile (outDir ++ "/" ++ frameFileName i w) fr :: writeFrames outDir w (i + 1) rest

/-- The lines of `capture_info.txt`, exactly as streamed by the worker. -/
def captureInfoLines (job : SaveJob) : List String :=
  [ "Start: " ++ natStr job.recordStart,
    "Frames: " ++ natStr job.frames.length,
    "Resolution: " ++ natStr job.meta.width ++ " x " ++ natStr job.meta.height,
    "Binning: " ++ natStr job.meta.binning,
    "Bits: " ++ natStr job.meta.bits,
    "Exposure(ms): " ++ natStr job.expMs,
    "Internal FPS: " ++ natStr job.meta.internalFps,
    "Readout speed: " ++ natStr job.meta.readoutSpeed ]

/-- All filesystem writes of one save-worker run (`stopSaving`'s thread
lambda, lines 1001–1029): every frame in acquisition order under its
zero-padded index name, then the single metadata file. -/
def saveWorkerWrites (job : SaveJob) : List FsWrite :=
  writeFrames job.outDir (saveWidth job.frames.length) 0 job.frames
    ++ [.infoFile (job.outDir ++ "/capture_info.txt") (captureInfoLines job)]

theorem writeFrames_length (outDir : String) (w : Nat) :
    ∀ (i : Nat) (fs : List Frame), (writeFrames outDir w i fs).length = fs.length := by
  intro i fs
  induction fs generalizing i with
  | nil => rfl
  | cons fr rest ih => simp [writeFrames, ih]

theorem writeFrames_getElem? (outDir : String) (w : Nat) :
    ∀ (fs : List Frame) (i k : Nat) (h : k < fs.length),
      (writeFrames outDir w i fs)[k]? =
        some (.imageFile (outDir ++ "/" ++ frameFileName (i + k) w) (fs.get ⟨k, h⟩)) := by
  intro fs
  induction fs with
  | nil => intro i k h; simp at h
  | cons fr rest ih =>
      intro i k h
      cases k with
      | zero => simp [writeFrames]
      | succ k =>
          have hk : k < rest.length := by simpa using h
          have harith : i + 1 + k = i + (k + 1) := by omega
          have := ih (i + 1) k hk
          rw [harith] at this
          simp only [writeFrames, List.getElem?_cons_succ, this, List.get_cons_succ]

theorem writeFrames_all_image (outDir : String) (w : Nat) :
    ∀ (i : Nat) (fs : List Frame) (x : FsWrite),
      x ∈ writeFrames outDir w i fs → x.isInfo = false := by
  intro i fs
  induction fs generalizing i with
  | nil => intro x hx; simp [writeFrames] at hx
  | cons fr rest ih =>
      intro x hx
      simp only [writeFrames, List.mem_cons] at hx
      rcases hx with rfl | hx
      · rfl
      · exact ih (i + 1) x hx

theorem frameFileName_injective {w : Nat} {i j : Nat}
    (h : frameFileName i w = frameFileName j w) : i = j := by
  have hdata : (frameFileName i w).data = (frameFileName j w).data := by rw [h]
  have hstem : (zeroPad (natStr i) w).data = (zeroPad (natStr j) w).data := by
    have : (zeroPad (natStr i) w).data ++ ".tiff".data
        = (zeroPad (natStr j) w).data ++ ".tiff".data := by
      simpa [frameFileName, String.data_append] using hdata
    exact List.append_cancel_right this
  have : zeroPad (natStr i) w = zeroPad (natStr j) w := String.ext hstem
  calc i = decodeIndex (zeroPad (natStr i) w) := (decodeIndex_pad i w).symm
    _ = decodeIndex (zeroPad (natStr j) w) := by rw [this]
    _ = j := decodeIndex_pad j w

/-! ### The recording / saving state of the application

The save-relevant mutable state of `main()` (lines 890–897): the shared
frame buffer, the two atomic flags, the frame counter, the session start
timestamp and the last displayed frame / metadata. The UI-thread handlers
(`startSaving`, `stopSaving`, capture button) and the acquisition-thread
record hook operate on this state; here each handler is one atomic
operation (its internal interleaving with the record hook is modelled
separately below by `RaceState`). -/

structure AppState where
  saveBuffer : List Frame
  recording : Bool
  saving : Bool
  recordedFrames : Nat
  recordStartTime : Nat
  lastFrame : Option Frame
  lastMeta : FrameMeta
deriving DecidableEq, Repr

/-- The initial state: empty buffer, both flags false, no frame shown yet. -/
def initState : AppState :=
  { saveBuffer := []
    recording := false
    saving := false
    recordedFrames := 0
    recordStartTime := 0
    lastFrame := none
    lastMeta := default }

/-- Outcome of the `startSaving` handler: rejected with the
"Already saving to disk" status, or started. -/
inductive StartResult where
  | alreadySaving
  | started
deriving DecidableEq, Repr

/-- The `startSaving` handler (lines 930–949): rejected iff a save to disk
is in progress; otherwise it sets the recording flag, clears the buffer
under the lock, zeroes the frame counter and records the start timestamp.
`now` is the wall clock read by `QDateTime::currentDateTime()`. -/
def startSaving (now : Nat) (s : AppState) : StartResult × AppState :=
  if s.saving then
    (.alreadySaving, s)
  else
    (.started,
      { s with
        recording := true
        saveBuffer := []
        recordedFrames := 0
        recordStartTime := now })

/-- Outcome of the `stopSaving` handler: the silent early return when no
session is open, the "No frames to save" return, or a spawned save job. -/
inductive StopResult where
  | notRecording
  | noFrames
  | saveStarted (job : SaveJob)
deriving DecidableEq, Repr

/-- Everything the `stopSaving` handler produces: its outcome, the state it
leaves behind, and the directories it creates (`mkpath`). -/
structure StopOutput where
  result : StopResult
  state : AppState
  dirsCreated : List String
deriving DecidableEq, Repr

/-- The `stopSaving` handler (lines 951–1041): early return when not
recording; otherwise flip the recording flag off, swap the buffer with a
fresh empty vector under the lock, return "No frames to save" when the
swapped-out sequence is empty (before any directory is created or the
saving flag is touched), and otherwise create the destination directory,
snapshot the metadata and spawn the worker with the saving flag set.
`appDir` is `QCoreApplication::applicationDirPath()`, `baseDir` the save
path field, `nowStamp` the `yyyyMMdd_hhmmss` timestamp, `expMs` the
exposure spin-box value. -/
def stopSaving (appDir baseDir nowStamp : String) (expMs : Nat) (s : AppState) : StopOutput :=
  if !s.recording then
    ⟨.notRecording, s, []⟩
  else
    let frames := s.saveBuffer
    let s' := { s with recording := false, saveBuffer := [] }
    if frames.isEmpty then
      ⟨.noFrames, s', []⟩
    else
      let base := if baseDir.isEmpty then appDir else baseDir
      let outDir := base ++ "/" ++ nowStamp
      let job : SaveJob :=
        { frames := frames
          meta := s.lastMeta
          expMs := expMs
          recordStart := s.recordStartTime
          outDir := outDir }
      ⟨.saveStarted job, { s' with saving := true }, [base, outDir]⟩

/-- What one save-worker run reports besides its filesystem writes. -/
structure WorkerOutput where
  writes : List FsWrite
  completeSignaled : Bool
deriving DecidableEq, Repr

/-- The detached worker thread run to completion (lines 1001–1040): performs
its writes, posts the "Save complete" status, and clears the saving flag.
It reads only the `SaveJob` captured at spawn time, never the live state. -/
def runWorker (job : SaveJob) (s : AppState) : WorkerOutput × AppState :=
  (⟨saveWorkerWrites job, true⟩, { s with saving := false })

/-- The record hook installed on the frame grabber (lines 1053–1058), as one
atomic operation: no-op unless the recording flag is set; otherwise append a
copy of the frame and bump the counter under the lock. -/
def appendFrame (f : Frame) (s : AppState) : AppState :=
  if s.recording then
    { s with saveBuffer := s.saveBuffer ++ [f], recordedFrames := s.recordedFrames + 1 }
  else
    s

/-- Outcome of the single-frame capture button. -/
inductive CaptureResult where
  | noFrame
  | writeFailed
  | captured (path : String)
deriving DecidableEq, Repr

/-- The capture-button handler (lines 911–928): fails when no frame has been
displayed yet; otherwise writes the last displayed frame to
`<base>/<yyyyMMdd_hhmmss_zzz>.tiff` synchronously. `codecOk` is whether
`QImage::save` succeeds. The state is returned unchanged in every case. -/
def captureFrame (appDir baseDir stampMs : String) (codecOk : Bool) (s : AppState) :
    CaptureResult × AppState × List FsWrite :=
  match s.lastFrame with
  | none => (.noFrame, s, [])
  | some fr =>
      let base := if baseDir.isEmpty then appDir else baseDir
      let path := base ++ "/" ++ stampMs ++ ".tiff"
      if codecOk then
        (.captured path, s, [.imageFile path fr])
      else
        (.writeFailed, s, [])

/-! ### Reachable states

Events that mutate the recording/saving state, each one atomic: the two
button handlers, the record hook, the frame-ready display handler, worker
completion, and the capture button. -/

inductive AppEvent where
  | evStart (now : Nat)
  | evStop (appDir baseDir nowStamp : String) (expMs : Nat)
  | evAppend (f : Frame)
  | evFrameReady (f : Frame) (m : FrameMeta)
  | evWorkerDone
  | evCapture (appDir baseDir stampMs : String) (codecOk : Bool)

/-- One event applied to the state. -/
def stepApp : AppEvent → AppState → AppState
  | .evStart now, s => (startSaving now s).2
  | .evStop appDir baseDir nowStamp expMs, s => (stopSaving appDir baseDir nowStamp expMs s).state
  | .evAppend f, s => appendFrame f s
  | .evFrameReady f m, s => { s with lastFrame := some f, lastMeta := m }
  | .evWorkerDone, s => { s with saving := false }
  | .evCapture appDir baseDir stampMs codecOk, s => (captureFrame appDir baseDir stampMs codecOk s).2.1

/-- States reachable from startup through any event sequence. -/
inductive Reachable : AppState → Prop
  | init : Reachable initState
  | step {s : AppState} (e : AppEvent) : Reachable s → Reachable (stepApp e s)

/-- In every reachable state the recording flag and the saving flag are not
both set: recording is only switched on when saving is observed false, and
saving is only switched on right after recording is switched off. -/
theorem reachable_not_rec_and_saving {s : AppState} (h : Reachable s) :
    ¬(s.recording = true ∧ s.saving = true) := by
  induction h with
  | init => simp [initState]
  | @step t e hs ih =>
      cases e with
      | evStart now =>
          by_cases hsav : t.saving <;>
            simp_all [stepApp, startSaving]
      | evStop appDir baseDir nowStamp expMs =>
          by_cases hrec : t.recording
          · by_cases hemp : t.saveBuffer.isEmpty <;>
              simp_all [stepApp, stopSaving]
          · simp_all [stepApp, stopSaving]
      | evAppend f =>
          by_cases hrec : t.recording <;> simp_all [stepApp, appendFrame]
      | evFrameReady f m => simp_all [stepApp]
      | evWorkerDone => simp_all [stepApp]
      | evCapture appDir baseDir stampMs codecOk =>
          cases hlf : t.lastFrame <;>
            by_cases hok : codecOk <;>
              simp_all [stepApp, captureFrame]

/-! ### Fine-grained interleaving of the record hook with start/stop

The record hook runs on the acquisition thread; `startSaving`/`stopSaving`
run on the UI thread. The shared state below is touched in these atomic
slices, exactly as the code decomposes them:

* record hook (lines 1054–1057): the lock-free flag read
  (`if (!recording.load()) return`) is one slice (`check`); the locked
  `push_back` plus counter increment is another (`push`);
* `stopSaving` (lines 953–962): `recording = false` (`flagOff`), then the
  locked buffer swap (`swap`);
* `startSaving` (lines 935–940): `recording = true` (`flagOn`), then the
  locked `saveBuffer->clear()` (`clearBuf`), then `recordedFrames = 0`
  outside the lock (`resetCtr`). -/

structure RaceState where
  recording : Bool
  buffer : List Frame
  counter : Nat
  jobFrames : Option (List Frame)
  checked : Bool
  pushed : Bool
deriving DecidableEq, Repr

inductive RaceAct where
  | check | push | flagOff | swap | flagOn | clearBuf | resetCtr
deriving DecidableEq, Repr

/-- One atomic slice applied to the shared state; `f` is the frame the
record hook is holding. -/
def stepRace (f : Frame) : RaceAct → RaceState → RaceState
  | .check, s => if s.recording then { s with checked := true } else s
  | .push, s =>
      if s.checked then
        { s with buffer := s.buffer ++ [f], counter := s.counter + 1, pushed := true }
      else s
  | .flagOff, s => { s with recording := false }
  | .swap, s => { s with jobFrames := some s.buffer, buffer := [] }
  | .flagOn, s => { s with recording := true }
  | .clearBuf, s => { s with buffer := [] }
  | .resetCtr, s => { s with counter := 0 }

/-- Run a schedule of atomic slices. -/
def runRace (f : Frame) (tr : List RaceAct) (s : RaceState) : RaceState :=
  tr.foldl (fun s a => stepRace f a s) s

/-- A shared state at the start of a schedule: `rec` says whether a session
is open, `b` is the buffer content, `c` the counter. -/
def raceInit (rec : Bool) (b : List Frame) (c : Nat) : RaceState :=
  { recording := rec, buffer := b, counter := c
    jobFrames := none, checked := false, pushed := false }

/-- The UI-thread slice sequence of a `stopSaving` immediately followed by a
`startSaving`, in program order. -/
def stopStartSteps : List RaceAct :=
  [.flagOff, .swap, .flagOn, .clearBuf, .resetCtr]

/-- The schedule that runs the hook's `check` just before position `i` of
`stopStartSteps` and its `push` just before position `j` (`i ≤ j`). -/
def interleaveAt (i j : Nat) : List RaceAct :=
  stopStartSteps.take i ++ [.check] ++ (stopStartSteps.drop i).take (j - i)
    ++ [.push] ++ stopStartSteps.drop j

/-- Every order-preserving interleaving of the record hook's two slices with
the five stop-then-start slices. -/
def stopStartInterleavings : List (List RaceAct) :=
  (List.range 6).flatMap fun i =>
    ((List.range 6).filter (fun j => decide (i ≤ j))).map fun j => interleaveAt i j

theorem stopStartInterleavings_count : stopStartInterleavings.length = 21 := by decide

/-- Does `a` occur strictly before `b` in the list (both assumed present)? -/
def occursBefore (a b : RaceAct) : List RaceAct → Bool
  | [] => false
  | x :: xs => if x = a then true else if x = b then false else occursBefore a b xs

/-- The prefix of a schedule up to and including the first occurrence of
`a`. -/
def takeThrough (a : RaceAct) : List RaceAct → List RaceAct
  | [] => []
  | x :: xs => if x = a then [x] else x :: takeThrough a xs

/-! ### Concrete scenario states used by witnesses and counterexamples -/

/-- A session just opened: `startSaving` pressed in the initial state. -/
def sRec : AppState := stepApp (.evStart 5) initState

/-- The open session after one frame has been appended by the record hook. -/
def sRecFull : AppState := stepApp (.evAppend ⟨3⟩) sRec

/-- The state right after `stopSaving` on that session: the worker is
running (`saving` set), the session is closed. -/
def sSaving : AppState := stepApp (.evStop "A" "B" "20250101_120000" 12) sRecFull

theorem sRec_reachable : Reachable sRec :=
  Reachable.step (.evStart 5) Reachable.init

theorem sRecFull_reachable : Reachable sRecFull :=
  Reachable.step (.evAppend ⟨3⟩) sRec_reachable

theorem sSaving_reachable : Reachable sSaving :=
  Reachable.step (.evStop "A" "B" "20250101_120000" 12) sRecFull_reachable

/-! ### The claims -/

/-- C1: stopping a session with `N > 0` buffered frames makes the save
worker write exactly `N` image files, the `k`-th one (acquisition order)
named `<k>.tiff` zero-padded to `max 6 ⌈log₁₀ N⌉` digits and holding the
`k`-th buffered frame, plus exactly one `capture_info.txt` in the same
destination directory; decoding the padded index recovers `k` and distinct
indices give distinct names, so numeric filename order reconstructs
acquisition order. -/
theorem save_worker_writes_round_trip (job : SaveJob) (hN : 0 < job.frames.length) :
    (saveWorkerWrites job).length = job.frames.length + 1 ∧
    saveWidth job.frames.length = max 6 (Nat.clog 10 job.frames.length) ∧
    (∀ k, ∀ h : k < job.frames.length,
      (saveWorkerWrites job)[k]? =
        some (.imageFile
          (job.outDir ++ "/" ++ frameFileName k (saveWidth job.frames.length))
          (job.frames.get ⟨k, h⟩))) ∧
    (saveWorkerWrites job)[job.frames.length]? =
      some (.infoFile (job.outDir ++ "/capture_info.txt") (captureInfoLines job)) ∧
    ((saveWorkerWrites job).filter FsWrite.isInfo).length = 1 ∧
    (∀ i j, frameFileName i (saveWidth job.frames.length)
      = frameFileName j (saveWidth job.frames.length) → i = j) ∧
    (∀ k, decodeIndex (zeroPad (natStr k) (saveWidth job.frames.length)) = k) := by
  refine ⟨?_, ?_, ?_, ?_, ?_, ?_, ?_⟩
  · simp [saveWorkerWrites, writeFrames_length]
  · have : max 1 job.frames.length = job.frames.length := Nat.max_eq_right hN
    rw [saveWidth, this]
  · intro k h
    rw [saveWorkerWrites,
      List.getElem?_append_left (by rw [writeFrames_length]; exact h)]
    simpa using writeFrames_getElem? job.outDir (saveWidth job.frames.length)
      job.frames 0 k h
  · rw [saveWorkerWrites,
      List.getElem?_append_right (by rw [writeFrames_length])]
    simp [writeFrames_length]
  · rw [saveWorkerWrites, List.filter_append]
    have hnil : (writeFrames job.outDir (saveWidth job.frames.length) 0 job.frames).filter
        FsWrite.isInfo = [] := by
      rw [List.filter_eq_nil_iff]
      intro x hx
      simp [writeFrames_all_image job.outDir (saveWidth job.frames.length) 0 job.frames x hx]
    rw [hnil]
    rfl
  · intro i j h
    exact frameFileName_injective h
  · intro k
    exact decodeIndex_pad k (saveWidth job.frames.length)

/-- A two-frame save job used to instantiate C1. -/
def jobW : SaveJob :=
  { frames := [⟨7⟩, ⟨8⟩], meta := default, expMs := 12, recordStart := 99, outDir := "D" }

/-- C1 witness: the round-trip theorem instantiated on a concrete two-frame
job. -/
theorem save_worker_writes_round_trip_witness :
    (saveWorkerWrites jobW).length = jobW.frames.length + 1 ∧
    (saveWorkerWrites jobW)[0]? =
      some (.imageFile (jobW.outDir ++ "/" ++ frameFileName 0 (saveWidth jobW.frames.length))
        (jobW.frames.get ⟨0, by decide⟩)) :=
  ⟨(save_worker_writes_round_trip jobW (by decide)).1,
   (save_worker_writes_round_trip jobW (by decide)).2.2.1 0 (by decide)⟩

/-- C2 counterexample: in the reachable state `sRec` a recording session is
already open and no save is running, yet `startSaving` succeeds (it restarts
the session) instead of failing with an already-recording error. -/
theorem start_while_recording_succeeds :
    Reachable sRec ∧ sRec.recording = true ∧ sRec.saving = false ∧
    (startSaving 7 sRec).1 = .started :=
  ⟨sRec_reachable, by decide, by decide, by decide⟩

/-- C2 (amended): `startSaving` is rejected exactly when a save to disk is
in progress — an already-open recording session is not checked and does not
cause a failure; when it proceeds it sets the recording flag, clears any
stale buffer content, zeroes the frame counter and records the session
start timestamp. -/
theorem start_saving_guarded_by_saving_flag (now : Nat) (s : AppState) :
    (s.saving = true → startSaving now s = (.alreadySaving, s)) ∧
    (s.saving = false → startSaving now s =
      (.started,
        { s with recording := true, saveBuffer := [], recordedFrames := 0,
                 recordStartTime := now })) := by
  constructor <;> intro h <;> simp [startSaving, h]

/-- C2 witness: the guard theorem instantiated on the running-save state and
on the initial state. -/
theorem start_saving_guarded_by_saving_flag_witness :
    startSaving 3 sSaving = (.alreadySaving, sSaving) ∧
    startSaving 3 initState =
      (.started,
        { initState with recording := true, saveBuffer := [], recordedFrames := 0,
                         recordStartTime := 3 }) :=
  ⟨(start_saving_guarded_by_saving_flag 3 sSaving).1 (by decide),
   (start_saving_guarded_by_saving_flag 3 initState).2 (by decide)⟩

/-- C3 counterexample: in the reachable state `sSaving` the previous save
worker is still running, and `startSaving` is rejected — a new recording
session can NOT be started while the previous save is still writing, contra
the claim's "may itself be started successfully immediately after
stopRecording() returns". -/
theorem start_during_save_rejected :
    Reachable sSaving ∧ sSaving.saving = true ∧
    (startSaving 9 sSaving).1 = .alreadySaving ∧
    (startSaving 9 sSaving).2 = sSaving :=
  ⟨sSaving_reachable, by decide, by decide, by decide⟩

/-- C3 (amended): only one save worker runs at a time. While the saving
flag is set, `startSaving` is rejected with the save-in-progress status, so
no new session can open; and in every reachable state with the saving flag
set the recording flag is off, so a `stopSaving`-triggered save request is
rejected (early return, no swap, no second worker) — a new session, and
hence a new save, can only start after the worker clears the flag. -/
theorem single_save_worker_guard {s : AppState} (h : Reachable s)
    (hsav : s.saving = true) :
    (∀ now, (startSaving now s).1 = .alreadySaving) ∧
    (∀ appDir baseDir nowStamp expMs,
      stopSaving appDir baseDir nowStamp expMs s = ⟨.notRecording, s, []⟩) := by
  have hrec : s.recording = false := by
    have hni := reachable_not_rec_and_saving h
    cases hr : s.recording
    · rfl
    · exact absurd ⟨hr, hsav⟩ hni
  constructor
  · intro now; simp [startSaving, hsav]
  · intro a b c e; simp [stopSaving, hrec]

/-- C3 witness: the guard instantiated on the running-save state. -/
theorem single_save_worker_guard_witness :
    (startSaving 11 sSaving).1 = .alreadySaving ∧
    stopSaving "A" "B" "T" 4 sSaving = ⟨.notRecording, sSaving, []⟩ :=
  ⟨(single_save_worker_guard sSaving_reachable (by decide)).1 11,
   (single_save_worker_guard sSaving_reachable (by decide)).2 "A" "B" "T" 4⟩

/-- C4: `stopSaving` with no open session is rejected without swapping the
buffer, creating a directory or starting a save (the state is returned
unchanged); in particular a second `stopSaving` right after one that closed
a session is rejected the same way. -/
theorem stop_without_session_rejected (a b c : String) (e : Nat)
    (a' b' c' : String) (e' : Nat) (s : AppState) :
    (s.recording = false → stopSaving a b c e s = ⟨.notRecording, s, []⟩) ∧
    (s.recording = true →
      stopSaving a' b' c' e' (stopSaving a b c e s).state =
        ⟨.notRecording, (stopSaving a b c e s).state, []⟩) := by
  have hbase : ∀ (x y z : String) (w : Nat) (t : AppState), t.recording = false →
      stopSaving x y z w t = ⟨.notRecording, t, []⟩ := by
    intro x y z w t ht; simp [stopSaving, ht]
  constructor
  · intro h; exact hbase a b c e s h
  · intro h
    have hrec' : (stopSaving a b c e s).state.recording = false := by
      by_cases hemp : s.saveBuffer.isEmpty <;> simp [stopSaving, h, hemp]
    exact hbase a' b' c' e' _ hrec'

/-- C4 witness: stopping in the initial state is rejected, and stopping
twice in a row from an open session is rejected the second time. -/
theorem stop_without_session_rejected_witness :
    stopSaving "A" "B" "T" 4 initState = ⟨.notRecording, initState, []⟩ ∧
    stopSaving "A" "B" "U" 6 (stopSaving "A" "B" "T" 4 sRecFull).state =
      ⟨.notRecording, (stopSaving "A" "B" "T" 4 sRecFull).state, []⟩ :=
  ⟨(stop_without_session_rejected "A" "B" "T" 4 "A" "B" "U" 6 initState).1 (by decide),
   (stop_without_session_rejected "A" "B" "T" 4 "A" "B" "U" 6 sRecFull).2 (by decide)⟩

/-- C5: with a session open, `stopSaving` flips the recording flag off and
swaps the buffer with a fresh empty one; when the swapped-out sequence is
empty it returns the explicit no-frames result, creating no directory and
starting no save (the saving flag is untouched); otherwise the save job
owns exactly the swapped-out sequence together with the metadata snapshot
taken at swap time, and the saving flag is set. -/
theorem stop_swaps_buffer_and_snapshots (a b c : String) (e : Nat)
    (s : AppState) (hrec : s.recording = true) :
    (stopSaving a b c e s).state.recording = false ∧
    (stopSaving a b c e s).state.saveBuffer = [] ∧
    (s.saveBuffer = [] →
      stopSaving a b c e s =
        ⟨.noFrames, { s with recording := false, saveBuffer := [] }, []⟩) ∧
    (s.saveBuffer ≠ [] →
      (stopSaving a b c e s).result = .saveStarted
        { frames := s.saveBuffer
          meta := s.lastMeta
          expMs := e
          recordStart := s.recordStartTime
          outDir := (if b.isEmpty then a else b) ++ "/" ++ c } ∧
      (stopSaving a b c e s).state.saving = true ∧
      (stopSaving a b c e s).dirsCreated =
        [if b.isEmpty then a else b, (if b.isEmpty then a else b) ++ "/" ++ c]) := by
  by_cases hemp : s.saveBuffer = []
  · refine ⟨?_, ?_, ?_, ?_⟩ <;>
      simp [stopSaving, hrec, hemp]
  · have hemp' : ¬s.saveBuffer.isEmpty := by
      simpa [List.isEmpty_iff] using hemp
    refine ⟨?_, ?_, ?_, ?_⟩ <;>
      simp [stopSaving, hrec, hemp, hemp']

/-- C5 witness: the swap theorem instantiated on the one-frame session and
on the empty session. -/
theorem stop_swaps_buffer_and_snapshots_witness :
    (stopSaving "A" "B" "T" 4 sRecFull).state.recording = false ∧
    ((stopSaving "A" "B" "T" 4 sRecFull).result = .saveStarted
      { frames := sRecFull.saveBuffer
        meta := sRecFull.lastMeta
        expMs := 4
        recordStart := sRecFull.recordStartTime
        outDir := "B" ++ "/" ++ "T" }) ∧
    stopSaving "A" "B" "T" 4 sRec =
      ⟨.noFrames, { sRec with recording := false, saveBuffer := [] }, []⟩ :=
  ⟨(stop_swaps_buffer_and_snapshots "A" "B" "T" 4 sRecFull (by decide)).1,
   by
     have := (stop_swaps_buffer_and_snapshots "A" "B" "T" 4 sRecFull (by decide)).2.2.2
       (by decide)
     simpa using this.1,
   (stop_swaps_buffer_and_snapshots "A" "B" "T" 4 sRec (by decide)).2.2.1 (by decide)⟩

/-- The single metadata write of a worker run: every other write is an
image file, so filtering for the info file leaves exactly the one
`capture_info.txt` write. -/
theorem saveWorkerWrites_filter_info (job : SaveJob) :
    (saveWorkerWrites job).filter FsWrite.isInfo =
      [.infoFile (job.outDir ++ "/capture_info.txt") (captureInfoLines job)] := by
  rw [saveWorkerWrites, List.filter_append]
  have hnil : (writeFrames job.outDir (saveWidth job.frames.length) 0 job.frames).filter
      FsWrite.isInfo = [] := by
    rw [List.filter_eq_nil_iff]
    intro x hx
    simp [writeFrames_all_image job.outDir (saveWidth job.frames.length) 0 job.frames x hx]
  rw [hnil]
  rfl

/-- C6: the save job handed to the worker carries the metadata snapshot
taken at stop-recording time, and a worker run writes exactly one metadata
record — `capture_info.txt` in the destination directory with the lines
`Start:`, `Frames:`, `Resolution: W x H`, `Binning:`, `Bits:`,
`Exposure(ms):`, `Internal FPS:`, `Readout speed:` holding the stop-time
values — then signals save-complete and clears the saving flag; the worker
reads only the job, so whatever the live state is at completion time
(device metadata re-queried or not), its output is unchanged. -/
theorem save_worker_metadata_snapshot (a b c : String) (e : Nat) (s : AppState)
    (job : SaveJob) (hres : (stopSaving a b c e s).result = .saveStarted job) :
    (saveWorkerWrites job).filter FsWrite.isInfo =
      [.infoFile (job.outDir ++ "/capture_info.txt")
        [ "Start: " ++ natStr s.recordStartTime,
          "Frames: " ++ natStr s.saveBuffer.length,
          "Resolution: " ++ natStr s.lastMeta.width ++ " x " ++ natStr s.lastMeta.height,
          "Binning: " ++ natStr s.lastMeta.binning,
          "Bits: " ++ natStr s.lastMeta.bits,
          "Exposure(ms): " ++ natStr e,
          "Internal FPS: " ++ natStr s.lastMeta.internalFps,
          "Readout speed: " ++ natStr s.lastMeta.readoutSpeed ]] ∧
    (∀ s' : AppState,
      (runWorker job s').1.writes = saveWorkerWrites job ∧
      (runWorker job s').1.completeSignaled = true ∧
      (runWorker job s').2 = { s' with saving := false }) := by
  have hjob : job =
      { frames := s.saveBuffer
        meta := s.lastMeta
        expMs := e
        recordStart := s.recordStartTime
        outDir := (if b.isEmpty then a else b) ++ "/" ++ c } := by
    by_cases hrec : s.recording
    · by_cases hemp : s.saveBuffer.isEmpty
      · simp [stopSaving, hrec, hemp] at hres
      · simp [stopSaving, hrec, hemp] at hres
        exact hres.symm
    · simp [stopSaving, hrec] at hres
  subst hjob
  refine ⟨?_, ?_⟩
  · rw [saveWorkerWrites_filter_info]
    rfl
  · intro s'
    exact ⟨rfl, rfl, rfl⟩

/-- The save job produced by stopping the one-frame session `sRecFull`. -/
def jobC6 : SaveJob :=
  { frames := [⟨3⟩], meta := default, expMs := 4, recordStart := 5, outDir := "B/T" }

/-- C6 witness: the snapshot theorem instantiated on the one-frame
session. -/
theorem save_worker_metadata_snapshot_witness :
    (saveWorkerWrites jobC6).filter FsWrite.isInfo =
      [.infoFile (jobC6.outDir ++ "/capture_info.txt")
        [ "Start: " ++ natStr sRecFull.recordStartTime,
          "Frames: " ++ natStr sRecFull.saveBuffer.length,
          "Resolution: " ++ natStr sRecFull.lastMeta.width ++ " x "
            ++ natStr sRecFull.lastMeta.height,
          "Binning: " ++ natStr sRecFull.lastMeta.binning,
          "Bits: " ++ natStr sRecFull.lastMeta.bits,
          "Exposure(ms): " ++ natStr 4,
          "Internal FPS: " ++ natStr sRecFull.lastMeta.internalFps,
          "Readout speed: " ++ natStr sRecFull.lastMeta.readoutSpeed ]] ∧
    (runWorker jobC6 sSaving).2 = { sSaving with saving := false } :=
  ⟨(save_worker_metadata_snapshot "A" "B" "T" 4 sRecFull jobC6 (by decide)).1,
   ((save_worker_metadata_snapshot "A" "B" "T" 4 sRecFull jobC6 (by decide)).2 sSaving).2.2⟩

/-- C7: for every order-preserving interleaving of the record hook's two
atomic slices with the slices of a stop-recording immediately followed by a
start-recording, if the hook's push executes then the frame lands either in
the old pre-swap sequence — in which case the locked swap hands it, with
the whole sequence, to the save job — or in the fresh post-swap sequence it
was pushed into; the swap itself never drops a frame. -/
theorem append_lands_in_old_or_new_sequence (b₀ : List Frame) (c₀ : Nat) (f : Frame)
    (tr : List RaceAct) (htr : tr ∈ stopStartInterleavings) :
    (runRace f tr (raceInit true b₀ c₀)).pushed = true →
      (occursBefore .push .swap tr = true →
        f ∈ (runRace f tr (raceInit true b₀ c₀)).jobFrames.getD []) ∧
      (occursBefore .push .swap tr = false →
        f ∈ (runRace f (takeThrough .push tr) (raceInit true b₀ c₀)).buffer) := by
  simp only [stopStartInterleavings, List.mem_flatMap, List.mem_map, List.mem_filter,
    List.mem_range, decide_eq_true_eq] at htr
  obtain ⟨i, hi, j, ⟨hj, hij⟩, rfl⟩ := htr
  interval_cases i <;> interval_cases j <;>
    · intro hp
      refine ⟨?_, ?_⟩ <;> intro hord <;>
        simp_all [interleaveAt, stopStartSteps, runRace, stepRace, raceInit,
          occursBefore, takeThrough]

/-- C7 witness: the schedule that runs the whole hook before the stop: the
pushed frame is in the sequence handed to the save job. -/
theorem append_lands_in_old_or_new_sequence_witness :
    (⟨2⟩ : Frame) ∈
      (runRace ⟨2⟩ (interleaveAt 0 0) (raceInit true [⟨1⟩] 1)).jobFrames.getD [] :=
  (append_lands_in_old_or_new_sequence [⟨1⟩] 1 ⟨2⟩ (interleaveAt 0 0)
    (by decide) (by decide)).1 (by decide)

/-- C8: single-frame capture is synchronous and leaves the whole state —
in particular the recording and saving flags — unchanged in every case; it
fails with the no-frame status when nothing has been displayed yet, fails
with the write-failed status when the codec write fails (writing nothing),
and otherwise writes the last displayed frame to
`<base>/<stamp>.tiff` under the base save path. -/
theorem capture_frame_contract (a b stamp : String) (ok : Bool) (s : AppState) :
    (captureFrame a b stamp ok s).2.1 = s ∧
    (s.lastFrame = none → captureFrame a b stamp ok s = (.noFrame, s, [])) ∧
    (∀ fr, s.lastFrame = some fr → ok = false →
      captureFrame a b stamp ok s = (.writeFailed, s, [])) ∧
    (∀ fr, s.lastFrame = some fr → ok = true →
      captureFrame a b stamp ok s =
        (.captured ((if b.isEmpty then a else b) ++ "/" ++ stamp ++ ".tiff"), s,
          [.imageFile ((if b.isEmpty then a else b) ++ "/" ++ stamp ++ ".tiff") fr])) := by
  refine ⟨?_, ?_, ?_, ?_⟩
  · cases h : s.lastFrame <;> cases ok <;> simp [captureFrame, h]
  · intro h; simp [captureFrame, h]
  · intro fr h hok; simp [captureFrame, h, hok]
  · intro fr h hok; simp [captureFrame, h, hok]

/-- A state with one displayed frame (frame-ready fired once). -/
def sFrame : AppState := stepApp (.evFrameReady ⟨4⟩ default) initState

/-- C8 witness: capture fails on the initial state and succeeds on the
one-frame state, leaving the state unchanged. -/
theorem capture_frame_contract_witness :
    captureFrame "A" "" "S" true initState = (.noFrame, initState, []) ∧
    captureFrame "A" "" "S" true sFrame =
      (.captured ("A" ++ "/" ++ "S" ++ ".tiff"), sFrame,
        [.imageFile ("A" ++ "/" ++ "S" ++ ".tiff") ⟨4⟩]) :=
  ⟨(capture_frame_contract "A" "" "S" true initState).2.1 rfl,
   by
     have h := (capture_frame_contract "A" "" "S" true sFrame).2.2.2 ⟨4⟩ (by decide) rfl
     simpa using h⟩

/-- C9: in every reachable state the recording flag and the saving flag are
never both set: `startSaving` is rejected whenever the saving flag is set,
and `stopSaving` only sets the saving flag in a state it leaves with the
recording flag off, so no frame is appended to the live buffer while a
worker is draining a job. -/
theorem recording_saving_mutually_exclusive {s : AppState} (h : Reachable s) :
    ¬(s.recording = true ∧ s.saving = true) ∧
    (∀ now, s.saving = true → (startSaving now s).1 = .alreadySaving) ∧
    (∀ a b c e, (stopSaving a b c e s).state.saving = true →
      (stopSaving a b c e s).state.recording = false) := by
  refine ⟨reachable_not_rec_and_saving h, ?_, ?_⟩
  · intro now hsav
    simp [startSaving, hsav]
  · intro a b c e hsav
    by_cases hrec : s.recording
    · by_cases hemp : s.saveBuffer.isEmpty <;> simp [stopSaving, hrec, hemp]
    · simp [stopSaving, hrec] at hsav ⊢

/-- C9 witness: the invariant instantiated on the running-save state. -/
theorem recording_saving_mutually_exclusive_witness :
    ¬(sSaving.recording = true ∧ sSaving.saving = true) :=
  (recording_saving_mutually_exclusive sSaving_reachable).1

/-- C10 counterexample: `startSaving` sets the recording flag (line 935)
before the locked buffer clear (line 938) and before the counter reset
(line 940, outside the lock), so the record hook CAN observe the open
session before the reset. In the schedule below — hook order `check` then
`push`, `startSaving` order `flagOn`, `clearBuf`, `resetCtr`, both
respected — the hook's check passes before the reset, the push lands
between the clear and the reset, and the run ends with the recording flag
set, one frame in the buffer and the counter at zero: the claimed
invariant `counter = buffer length` is broken in the resulting state. -/
theorem append_racing_start_breaks_counter :
    occursBefore .check .resetCtr [.flagOn, .check, .clearBuf, .push, .resetCtr] = true ∧
    (runRace ⟨6⟩ [.flagOn, .check, .clearBuf, .push, .resetCtr]
      (raceInit false [] 0)).pushed = true ∧
    (runRace ⟨6⟩ [.flagOn, .check, .clearBuf, .push, .resetCtr]
      (raceInit false [] 0)).recording = true ∧
    (runRace ⟨6⟩ [.flagOn, .check, .clearBuf, .push, .resetCtr]
      (raceInit false [] 0)).buffer.length = 1 ∧
    (runRace ⟨6⟩ [.flagOn, .check, .clearBuf, .push, .resetCtr]
      (raceInit false [] 0)).counter = 0 := by
  decide

/-- C10 (amended): every append pushes one frame and increments the counter
under one lock, and `startSaving` clears the buffer and zeroes the counter
— but it sets the recording flag first, so the equality only holds when no
append interleaves with `startSaving` itself: with each control operation
atomic, every reachable state with the recording flag set has the counter
equal to the buffer length. -/
theorem counter_matches_buffer_when_serialized {s : AppState} (h : Reachable s) :
    s.recording = true → s.recordedFrames = s.saveBuffer.length := by
  induction h with
  | init => intro hrec; simp [initState] at hrec
  | @step t e hs ih =>
      cases e with
      | evStart now =>
          intro hrec
          by_cases hsav : t.saving
          · simp only [stepApp, startSaving, hsav, if_true] at hrec ⊢
            exact ih hrec
          · simp [stepApp, startSaving, hsav]
      | evStop appDir baseDir nowStamp expMs =>
          intro hrec
          by_cases hrec0 : t.recording
          · by_cases hemp : t.saveBuffer.isEmpty <;>
              simp [stepApp, stopSaving, hrec0, hemp] at hrec
          · simp only [stepApp, stopSaving, hrec0] at hrec ⊢
            simp at hrec ⊢
            exact ih hrec
      | evAppend f =>
          intro hrec
          by_cases hrec0 : t.recording
          · simp [stepApp, appendFrame, hrec0, ih hrec0]
          · simp only [stepApp, appendFrame, hrec0, if_neg] at hrec ⊢
            simp at hrec ⊢
            exact ih hrec
      | evFrameReady f m =>
          intro hrec
          simp only [stepApp] at hrec ⊢
          exact ih hrec
      | evWorkerDone =>
          intro hrec
          simp only [stepApp] at hrec ⊢
          exact ih hrec
      | evCapture appDir baseDir stampMs codecOk =>
          intro hrec
          cases hlf : t.lastFrame <;> cases codecOk <;>
            simp only [stepApp, captureFrame, hlf] at hrec ⊢ <;>
              exact ih hrec

/-- C10 witness: the serialized invariant instantiated on the one-frame
session. -/
theorem counter_matches_buffer_when_serialized_witness :
    sRecFull.recordedFrames = sRecFull.saveBuffer.length :=
  counter_matches_buffer_when_serialized sRecFull_reachable (by decide)

end DCAM
